import Mathlib

/-!
Shallow embedding of the `quick_input` Rust library (src/quick_input/src/lib.rs).

The library reads lines from stdin and writes prompts / error messages to
stdout.  We model the console as a finite list of read events (either a
successful line, terminator included, or an I/O error that makes Rust's
`read_line(..).expect(..)` / `unwrap()` panic) and record every write as a
string in order (`print!` emits the text verbatim, `println!` appends a
newline).  A reader returns an `Outcome`: a value together with the
unconsumed events and the full list of writes, or `panicked` (an `unwrap` /
`expect` failed), or `blocked` (the scripted events ran out while the loop
still wanted another line).

Rust string primitives used by the library are embedded over `List Char`
(Lean strings are lists of characters, so everything evaluates by `decide`):
`str::trim`, `str::replace(',', ".")`, `str::to_lowercase`, and the standard
`FromStr` parsers for the integer types, `bool`, `f64`/`f32`.  The numeric
inputs in this development are ASCII, for which Lean's `Char.isWhitespace` /
`Char.toLower` agree with Rust's Unicode versions.  Floating-point values
are idealized as exact rationals (plus infinities and NaN): the embedding
keeps Rust's accepted grammar for `f64`/`f32` exactly, and abstracts the
final rounding to binary floating point, which no claim here depends on.
-/

namespace QuickInput

/-- Numeric value of a list of decimal digit characters (0 for `[]`). -/
def natOfDigits (cs : List Char) : Nat :=
  cs.foldl (fun a c => a * 10 + (c.toNat - 48)) 0

/-- `some` value of a nonempty all-digit character list, else `none`.
This is the digit-run check shared by all Rust integer `FromStr` parsers. -/
def decDigitsVal (cs : List Char) : Option Nat :=
  if !cs.isEmpty && cs.all Char.isDigit then some (natOfDigits cs) else none

/-- Strip one optional leading sign; returns (isNegative, remaining chars). -/
def stripSign : List Char → Bool × List Char
  | '+' :: rest => (false, rest)
  | '-' :: rest => (true, rest)
  | cs => (false, cs)

/-- Drop one optional leading `+` (the only sign Rust's unsigned
`from_str` strips; a `-` is left in place and then fails as a digit). -/
def dropPlus (cs : List Char) : List Char :=
  match cs with
  | c :: rest => if c = '+' then rest else c :: rest
  | [] => []

/-- Rust `uN::from_str` for `maxVal` = 2^N - 1: optional leading `+`
(never `-`), then a nonempty digit run whose value must fit.  Empty input,
a stray sign, any non-digit character, and overflow all yield `none`. -/
def rustParseUnsigned (maxVal : Nat) (s : String) : Option Nat :=
  match decDigitsVal (dropPlus s.toList) with
  | some n => if n ≤ maxVal then some n else none
  | none => none

/-- Rust `iN::from_str`: optional leading `+` or `-`, then a nonempty
digit run; the signed value must lie in `[minVal, maxVal]`. -/
def rustParseSigned (minVal maxVal : Int) (s : String) : Option Int :=
  let sd := stripSign s.toList
  match decDigitsVal sd.2 with
  | some n =>
      let v : Int := if sd.1 then -(n : Int) else (n : Int)
      if minVal ≤ v ∧ v ≤ maxVal then some v else none
  | none => none

def rustParseI32 (s : String) : Option Int :=
  rustParseSigned (-2147483648) 2147483647 s

def rustParseU32 (s : String) : Option Nat :=
  rustParseUnsigned 4294967295 s

def rustParseU8 (s : String) : Option Nat :=
  rustParseUnsigned 255 s

/-- Rust `bool::from_str`: exactly the tokens `true` / `false`. -/
def rustParseBool (s : String) : Option Bool :=
  if s = "true" then some true
  else if s = "false" then some false
  else none

/-- Idealized floating-point value: exact rational, infinities, or NaN. -/
inductive FloatVal where
  | finite (q : ℚ)
  | posInf
  | negInf
  | nan
deriving DecidableEq, Repr

/-- Split a character list at the first character satisfying `p`:
returns the part before it and, if found, the part after it. -/
def splitAtFirstBy (p : Char → Bool) : List Char → List Char × Option (List Char)
  | [] => ([], none)
  | c :: rest =>
    if p c then ([], some rest)
    else
      let r := splitAtFirstBy p rest
      (c :: r.1, r.2)

/-- Mantissa of Rust's float grammar: `Count '.'? | Count? '.' Count?`
with not both sides of the dot empty; value as an exact rational. -/
def parseMantissa (cs : List Char) : Option ℚ :=
  match splitAtFirstBy (fun c => c = '.') cs with
  | (ds, none) => (decDigitsVal ds).map (fun n => (n : ℚ))
  | (intPart, some fracPart) =>
    if intPart.isEmpty && fracPart.isEmpty then none
    else if intPart.all Char.isDigit && fracPart.all Char.isDigit then
      some ((natOfDigits intPart : ℚ) +
        (natOfDigits fracPart : ℚ) / (10 : ℚ) ^ fracPart.length)
    else none

/-- Exponent part of Rust's float grammar: `Sign? Count`. -/
def parseExp (cs : List Char) : Option Int :=
  let sd := stripSign cs
  (decDigitsVal sd.2).map (fun n => if sd.1 then -(n : Int) else (n : Int))

/-- Rust `f64::from_str` / `f32::from_str` grammar:
`Sign? ( 'inf' | 'infinity' | 'nan' | Number )` (keywords case-insensitive),
`Number ::= Count '.'? Exp? | Count? '.' Count? Exp?` (dot with at least one
digit adjacent), `Exp ::= ('e'|'E') Sign? Count`.  Finite values are exact
rationals; binary rounding is abstracted away. -/
def rustParseFloat (s : String) : Option FloatVal :=
  let sd := stripSign s.toList
  let lower := sd.2.map Char.toLower
  if lower = "inf".toList ∨ lower = "infinity".toList then
    some (if sd.1 then FloatVal.negInf else FloatVal.posInf)
  else if lower = "nan".toList then
    some FloatVal.nan
  else
    let sp := splitAtFirstBy (fun c => c = 'e' || c = 'E') sd.2
    let e : Option Int := match sp.2 with
      | none => some 0
      | some ecs => parseExp ecs
    match parseMantissa sp.1, e with
    | some m, some ex =>
        some (FloatVal.finite ((if sd.1 then -m else m) * (10 : ℚ) ^ ex))
    | _, _ => none

def rustParseF64 (s : String) : Option FloatVal := rustParseFloat s

def rustParseF32 (s : String) : Option FloatVal := rustParseFloat s

/-- Rust `str::trim` (ASCII whitespace suffices for this development). -/
def rustTrim (s : String) : String :=
  String.mk (((s.toList.dropWhile Char.isWhitespace).reverse.dropWhile
    Char.isWhitespace).reverse)

/-- Rust `String::replace(',', ".")`: every comma becomes a dot. -/
def replaceCommas (s : String) : String :=
  String.mk (s.toList.map (fun c => if c = ',' then '.' else c))

/-- Rust `str::to_lowercase` (ASCII suffices for this development). -/
def rustToLowercase (s : String) : String :=
  String.mk (s.toList.map Char.toLower)

/-- One scripted interaction with stdin: `read_line` either appends a full
line (terminator included) or returns an `Err`, which the library's
`expect` turns into a panic. -/
inductive ReadEvent where
  | line (s : String)
  | ioError
deriving DecidableEq, Repr

/-- Result of running a reader against a finite event script: a value with
the unconsumed events and all writes in order, a panic (a failed `unwrap` /
`expect`), or `blocked` (the script ran out while another line was wanted). -/
inductive Outcome (α : Type) where
  | ok (v : α) (rest : List ReadEvent) (out : List String)
  | panicked (out : List String)
  | blocked (out : List String)
deriving DecidableEq, Repr

/-- Prepend writes that happened before the rest of the run. -/
def Outcome.withOut : Outcome α → List String → Outcome α
  | .ok v r o, w => .ok v r (w ++ o)
  | .panicked o, w => .panicked (w ++ o)
  | .blocked o, w => .blocked (w ++ o)

/-- What one loop iteration prints before reading: the prompt text when a
message was supplied (the `print!` of `msg.unwrap()`), nothing otherwise. -/
def promptWrites : Option String → List String
  | some m => [m]
  | none => []

/-- Embeds `show_error_message` (lib.rs:957): prints the custom message when
present, otherwise the default, then the separator line `---`. -/
def showErrorMessage (errMsg : Option String) (defErrMsg : String) : List String :=
  match errMsg with
  | some e => [e ++ "\n", "---\n"]
  | none => [defErrMsg ++ "\n", "---\n"]

/-- Loop body of `read_i32` (lib.rs:79).  The two source branches are
verbatim identical except for the prompt `print!`, so both are modeled by
one worker over `pOut`, the writes emitted before each read.  Each
iteration clears the buffer, reads a line, shows an error if the trimmed
line does not parse as i32, and the `while` condition re-checks the same
parse; on exit the final `input.trim().parse().unwrap()` returns it. -/
def readI32Loop (pOut : List String) (errMsg : Option String) :
    List ReadEvent → Outcome Int
  | [] => Outcome.blocked pOut
  | ReadEvent.ioError :: _ => Outcome.panicked pOut
  | ReadEvent.line s :: rest =>
    let errOut :=
      if (rustParseI32 (rustTrim s)).isNone then
        showErrorMessage errMsg "Please enter a valid number (32 bits)."
      else []
    match rustParseI32 (rustTrim s) with
    | some n => Outcome.ok n rest (pOut ++ errOut)
    | none => (readI32Loop pOut errMsg rest).withOut (pOut ++ errOut)

/-- Embeds `read_i32` (lib.rs:79): dispatch on `msg.is_some()`. -/
def readI32 (msg errMsg : Option String) (events : List ReadEvent) : Outcome Int :=
  readI32Loop (promptWrites msg) errMsg events

/-- Loop body of `read_u8` (lib.rs:476); both branches are identical except
for the prompt, exactly as in `read_i32`. -/
def readU8Loop (pOut : List String) (errMsg : Option String) :
    List ReadEvent → Outcome Nat
  | [] => Outcome.blocked pOut
  | ReadEvent.ioError :: _ => Outcome.panicked pOut
  | ReadEvent.line s :: rest =>
    let errOut :=
      if (rustParseU8 (rustTrim s)).isNone then
        showErrorMessage errMsg "Please enter a valid positive number (8 bits)."
      else []
    match rustParseU8 (rustTrim s) with
    | some n => Outcome.ok n rest (pOut ++ errOut)
    | none => (readU8Loop pOut errMsg rest).withOut (pOut ++ errOut)

/-- Embeds `read_u8` (lib.rs:476). -/
def readU8 (msg errMsg : Option String) (events : List ReadEvent) : Outcome Nat :=
  readU8Loop (promptWrites msg) errMsg events

/-- Prompt-present branch of `read_u32` (lib.rs:135-144): the loop
condition, the error check, and the final parse all use the u32 parser. -/
def readU32LoopSome (m : String) (errMsg : Option String) :
    List ReadEvent → Outcome Nat
  | [] => Outcome.blocked [m]
  | ReadEvent.ioError :: _ => Outcome.panicked [m]
  | ReadEvent.line s :: rest =>
    let errOut :=
      if (rustParseU32 (rustTrim s)).isNone then
        showErrorMessage errMsg "Please enter a valid positive number (32 bits)."
      else []
    match rustParseU32 (rustTrim s) with
    | some n => Outcome.ok n rest ([m] ++ errOut)
    | none => (readU32LoopSome m errMsg rest).withOut ([m] ++ errOut)

/-- Prompt-absent branch of `read_u32` (lib.rs:145-154): the `while`
condition and the error check parse as **i32** (the source asymmetry),
while the final `input.trim().parse::<u32>().unwrap()` (lib.rs:156) parses
as u32 and panics when that fails. -/
def readU32LoopNone (errMsg : Option String) :
    List ReadEvent → Outcome Nat
  | [] => Outcome.blocked []
  | ReadEvent.ioError :: _ => Outcome.panicked []
  | ReadEvent.line s :: rest =>
    let errOut :=
      if (rustParseI32 (rustTrim s)).isNone then
        showErrorMessage errMsg "Please enter a valid positive number (32 bits)."
      else []
    if (rustParseI32 (rustTrim s)).isSome then
      match rustParseU32 (rustTrim s) with
      | some n => Outcome.ok n rest errOut
      | none => Outcome.panicked errOut
    else (readU32LoopNone errMsg rest).withOut errOut

/-- Embeds `read_u32` (lib.rs:132). -/
def readU32 (msg errMsg : Option String) (events : List ReadEvent) : Outcome Nat :=
  match msg with
  | some m => readU32LoopSome m errMsg events
  | none => readU32LoopNone errMsg events

/-- Prompt-present branch of `read_f64` (lib.rs:189-198): condition, error
check and final parse all use `input.replace(',', ".").trim().parse::<f64>()`. -/
def readF64LoopSome (m : String) (errMsg : Option String) :
    List ReadEvent → Outcome FloatVal
  | [] => Outcome.blocked [m]
  | ReadEvent.ioError :: _ => Outcome.panicked [m]
  | ReadEvent.line s :: rest =>
    let errOut :=
      if (rustParseF64 (rustTrim (replaceCommas s))).isNone then
        showErrorMessage errMsg "Please enter a valid real number (64 bits)."
      else []
    match rustParseF64 (rustTrim (replaceCommas s)) with
    | some v => Outcome.ok v rest ([m] ++ errOut)
    | none => (readF64LoopSome m errMsg rest).withOut ([m] ++ errOut)

/-- Prompt-absent branch of `read_f64` (lib.rs:199-207): the `while`
condition parses `input.trim()` **without** the comma replacement (the
source asymmetry), while the error check and the final
`input.replace(',', ".").trim().parse().unwrap()` (lib.rs:210) use the
replaced form. -/
def readF64LoopNone (errMsg : Option String) :
    List ReadEvent → Outcome FloatVal
  | [] => Outcome.blocked []
  | ReadEvent.ioError :: _ => Outcome.panicked []
  | ReadEvent.line s :: rest =>
    let errOut :=
      if (rustParseF64 (rustTrim (replaceCommas s))).isNone then
        showErrorMessage errMsg "Please enter a valid real number (64 bits)."
      else []
    if (rustParseF64 (rustTrim s)).isSome then
      match rustParseF64 (rustTrim (replaceCommas s)) with
      | some v => Outcome.ok v rest errOut
      | none => Outcome.panicked errOut
    else (readF64LoopNone errMsg rest).withOut errOut

/-- Embeds `read_f64` (lib.rs:186). -/
def readF64 (msg errMsg : Option String) (events : List ReadEvent) :
    Outcome FloatVal :=
  match msg with
  | some m => readF64LoopSome m errMsg events
  | none => readF64LoopNone errMsg events

/-- Prompt-present branch of `read_f32` (lib.rs:373-382); same shape as
`read_f64` with the f32 parser and the 32-bit default message. -/
def readF32LoopSome (m : String) (errMsg : Option String) :
    List ReadEvent → Outcome FloatVal
  | [] => Outcome.blocked [m]
  | ReadEvent.ioError :: _ => Outcome.panicked [m]
  | ReadEvent.line s :: rest =>
    let errOut :=
      if (rustParseF32 (rustTrim (replaceCommas s))).isNone then
        showErrorMessage errMsg "Please enter a valid real number (32 bits)."
      else []
    match rustParseF32 (rustTrim (replaceCommas s)) with
    | some v => Outcome.ok v rest ([m] ++ errOut)
    | none => (readF32LoopSome m errMsg rest).withOut ([m] ++ errOut)

/-- Prompt-absent branch of `read_f32` (lib.rs:383-391): like `read_f64`,
the `while` condition omits the comma replacement. -/
def readF32LoopNone (errMsg : Option String) :
    List ReadEvent → Outcome FloatVal
  | [] => Outcome.blocked []
  | ReadEvent.ioError :: _ => Outcome.panicked []
  | ReadEvent.line s :: rest =>
    let errOut :=
      if (rustParseF32 (rustTrim (replaceCommas s))).isNone then
        showErrorMessage errMsg "Please enter a valid real number (32 bits)."
      else []
    if (rustParseF32 (rustTrim s)).isSome then
      match rustParseF32 (rustTrim (replaceCommas s)) with
      | some v => Outcome.ok v rest errOut
      | none => Outcome.panicked errOut
    else (readF32LoopNone errMsg rest).withOut errOut

/-- Embeds `read_f32` (lib.rs:370). -/
def readF32 (msg errMsg : Option String) (events : List ReadEvent) :
    Outcome FloatVal :=
  match msg with
  | some m => readF32LoopSome m errMsg events
  | none => readF32LoopNone errMsg events

/-- Prompt-present branch of `read_bool` (lib.rs:279-290): after reading,
`input = input.trim().to_lowercase()`; the error check parses `input`, the
`while` condition and the final unwrap parse `input.trim()`. -/
def readBoolLoopSome (m : String) (errMsg : Option String) :
    List ReadEvent → Outcome Bool
  | [] => Outcome.blocked [m]
  | ReadEvent.ioError :: _ => Outcome.panicked [m]
  | ReadEvent.line s :: rest =>
    let inp := rustToLowercase (rustTrim s)
    let errOut :=
      if (rustParseBool inp).isNone then
        showErrorMessage errMsg "Please enter a valid boolean value (true / false)."
      else []
    match rustParseBool (rustTrim inp) with
    | some b => Outcome.ok b rest ([m] ++ errOut)
    | none => (readBoolLoopSome m errMsg rest).withOut ([m] ++ errOut)

/-- Prompt-absent branch of `read_bool` (lib.rs:291-303): identical to the
prompt branch except that it additionally executes a `println!` of the buffer
(lib.rs:298), echoing the lowercased trimmed input line to the output. -/
def readBoolLoopNone (errMsg : Option String) :
    List ReadEvent → Outcome Bool
  | [] => Outcome.blocked []
  | ReadEvent.ioError :: _ => Outcome.panicked []
  | ReadEvent.line s :: rest =>
    let inp := rustToLowercase (rustTrim s)
    let echoOut := [inp ++ "\n"]
    let errOut :=
      if (rustParseBool inp).isNone then
        showErrorMessage errMsg "Please enter a valid boolean value (true / false)."
      else []
    match rustParseBool (rustTrim inp) with
    | some b => Outcome.ok b rest (echoOut ++ errOut)
    | none => (readBoolLoopNone errMsg rest).withOut (echoOut ++ errOut)

/-- Embeds `read_bool` (lib.rs:276). -/
def readBool (msg errMsg : Option String) (events : List ReadEvent) :
    Outcome Bool :=
  match msg with
  | some m => readBoolLoopSome m errMsg events
  | none => readBoolLoopNone errMsg events

/-- Embeds `read_char` (lib.rs:234): no loop at all.  The buffer starts as `"."`
but is cleared in both branches before reading; then
`input.trim().chars().next().unwrap()` returns the first character of the
trimmed line, panicking when the trimmed line is empty. -/
def readChar (msg : Option String) (events : List ReadEvent) : Outcome Char :=
  match events with
  | [] => Outcome.blocked (promptWrites msg)
  | ReadEvent.ioError :: _ => Outcome.panicked (promptWrites msg)
  | ReadEvent.line s :: rest =>
    match (rustTrim s).toList with
    | c :: _ => Outcome.ok c rest (promptWrites msg)
    | [] => Outcome.panicked (promptWrites msg)

/-! Helper lemmas about the unsigned parser, shared by the claims below. -/

lemma mem_dropPlus {c : Char} {cs : List Char} (hc : c ∈ cs) (hne : c ≠ '+') :
    c ∈ dropPlus cs := by
  cases cs with
  | nil => cases hc
  | cons a rest =>
    simp only [dropPlus]
    by_cases ha : a = '+'
    · subst ha
      simp only [if_pos rfl]
      rcases List.mem_cons.mp hc with h | h
      · exact absurd h hne
      · exact h
    · simp only [if_neg ha]
      exact hc

lemma decDigitsVal_eq_none_of_mem {c : Char} {cs : List Char}
    (hc : c ∈ cs) (hd : c.isDigit = false) : decDigitsVal cs = none := by
  cases hall : cs.all Char.isDigit with
  | true => exact absurd (List.all_eq_true.mp hall c hc) (by simp [hd])
  | false => simp [decDigitsVal, hall]

lemma rustParseUnsigned_le {maxVal : Nat} {s : String} {v : Nat}
    (h : rustParseUnsigned maxVal s = some v) : v ≤ maxVal := by
  unfold rustParseUnsigned at h
  split at h
  next n _ =>
    split at h
    next hle => cases h; exact hle
    next => cases h
  next => cases h

lemma rustParseUnsigned_eq_none_of_mem {maxVal : Nat} {s : String} {c : Char}
    (hc : c ∈ s.toList) (hd : c.isDigit = false) (hp : c ≠ '+') :
    rustParseUnsigned maxVal s = none := by
  unfold rustParseUnsigned
  rw [decDigitsVal_eq_none_of_mem (mem_dropPlus hc hp) hd]

/-- C1: the claim says the u32 parser governs both the loop-condition check
and the final parse in both branches of `read_u32`, so a trimmed line with a
leading `-` always triggers a retry and the final unwrap never fails.  The
prompt-present branch does behave that way (second conjunct: "-5" is
rejected with the default error and the loop retries), but in the
prompt-absent branch the loop condition parses as i32: the line "-5" passes
validation, the loop exits, and `parse::<u32>().unwrap()` panics (first
conjunct). -/
theorem readU32_signed_validation_asymmetry :
    readU32 none none [ReadEvent.line "-5\n"] = Outcome.panicked [] ∧
    readU32 (some "p") none [ReadEvent.line "-5\n", ReadEvent.line "7\n"] =
      Outcome.ok 7 []
        ["p", "Please enter a valid positive number (32 bits).\n", "---\n", "p"] :=
  ⟨by decide, by decide⟩

/-- C2: `read_char` does return the first character of the trimmed line
("hello" gives 'h', with or without a prompt), but on a line whose trimmed
content is empty it does NOT retry: there is no loop in `read_char`, and
`chars().next().unwrap()` panics without reading the next line. -/
theorem readChar_first_char_no_retry :
    readChar none [ReadEvent.line "hello\n"] = Outcome.ok 'h' [] [] ∧
    readChar (some "p") [ReadEvent.line "hello\n"] = Outcome.ok 'h' [] ["p"] ∧
    readChar none [ReadEvent.line "\n", ReadEvent.line "a\n"] =
      Outcome.panicked [] :=
  ⟨by decide, by decide, by decide⟩

/-- C3: with a prompt, `read_f64`/`read_f32` accept both "12.3" and "12,3"
in a single iteration, yielding 12.3, and "1,2,3" is rejected with a retry.
Without a prompt, however, the `while` condition parses the line without
the comma replacement, so "12,3" passes the inner check (no error message)
yet fails the loop condition: the reader silently consumes it and reads
another line instead of yielding 12.3 (fifth and seventh conjuncts). -/
theorem readFloat_separator_tolerance_asymmetry :
    (readF64 (some "p") none [ReadEvent.line "12.3\n"] =
      Outcome.ok (FloatVal.finite (123/10)) [] ["p"]) ∧
    (readF64 (some "p") none [ReadEvent.line "12,3\n"] =
      Outcome.ok (FloatVal.finite (123/10)) [] ["p"]) ∧
    (readF64 (some "p") none [ReadEvent.line "1,2,3\n", ReadEvent.line "1\n"] =
      Outcome.ok (FloatVal.finite 1) []
        ["p", "Please enter a valid real number (64 bits).\n", "---\n", "p"]) ∧
    (readF64 none none [ReadEvent.line "12.3\n"] =
      Outcome.ok (FloatVal.finite (123/10)) [] []) ∧
    (readF64 none none [ReadEvent.line "12,3\n", ReadEvent.line "9\n"] =
      Outcome.ok (FloatVal.finite 9) [] []) ∧
    (readF32 (some "p") none [ReadEvent.line "12,3\n"] =
      Outcome.ok (FloatVal.finite (123/10)) [] ["p"]) ∧
    (readF32 none none [ReadEvent.line "12,3\n", ReadEvent.line "9\n"] =
      Outcome.ok (FloatVal.finite 9) [] []) := by
  refine ⟨?_, ?_, ?_, ?_, ?_, ?_, ?_⟩
  · simp [readF64, readF64LoopSome, rustParseF64, rustParseFloat, stripSign,
      splitAtFirstBy, parseMantissa, parseExp, decDigitsVal, natOfDigits,
      rustTrim, replaceCommas, showErrorMessage]
    norm_num
  · simp [readF64, readF64LoopSome, rustParseF64, rustParseFloat, stripSign,
      splitAtFirstBy, parseMantissa, parseExp, decDigitsVal, natOfDigits,
      rustTrim, replaceCommas, showErrorMessage]
    norm_num
  · simp [readF64, readF64LoopSome, rustParseF64, rustParseFloat, stripSign,
      splitAtFirstBy, parseMantissa, parseExp, decDigitsVal, natOfDigits,
      rustTrim, replaceCommas, showErrorMessage, Outcome.withOut]
  · simp [readF64, readF64LoopNone, rustParseF64, rustParseFloat, stripSign,
      splitAtFirstBy, parseMantissa, parseExp, decDigitsVal, natOfDigits,
      rustTrim, replaceCommas, showErrorMessage]
    norm_num
  · simp [readF64, readF64LoopNone, rustParseF64, rustParseFloat, stripSign,
      splitAtFirstBy, parseMantissa, parseExp, decDigitsVal, natOfDigits,
      rustTrim, replaceCommas, showErrorMessage, Outcome.withOut]
  · simp [readF32, readF32LoopSome, rustParseF32, rustParseFloat, stripSign,
      splitAtFirstBy, parseMantissa, parseExp, decDigitsVal, natOfDigits,
      rustTrim, replaceCommas, showErrorMessage]
    norm_num
  · simp [readF32, readF32LoopNone, rustParseF32, rustParseFloat, stripSign,
      splitAtFirstBy, parseMantissa, parseExp, decDigitsVal, natOfDigits,
      rustTrim, replaceCommas, showErrorMessage, Outcome.withOut]

/-- C4: the retry invariant does hold for `read_i32` (first two conjuncts:
two scripted runs consume exactly one line per iteration, leave the rest of
the script untouched, and return the parse of the final valid line), but it
fails for "every reader": `read_char` has no retry loop, so an invalid
(all-whitespace) line followed by a valid one panics at the first line
instead of consuming both (third conjunct). -/
theorem retry_invariant_by_reader :
    (readI32 none none
        [ReadEvent.line "abc\n", ReadEvent.line "42\n", ReadEvent.line "99\n"] =
      Outcome.ok 42 [ReadEvent.line "99\n"]
        ["Please enter a valid number (32 bits).\n", "---\n"]) ∧
    (readI32 (some "p") (some "E")
        [ReadEvent.line "2147483648\n", ReadEvent.line "-7\n"] =
      Outcome.ok (-7) [] ["p", "E\n", "---\n", "p"]) ∧
    (readChar none [ReadEvent.line " \n", ReadEvent.line "b\n"] =
      Outcome.panicked []) :=
  ⟨by decide, by decide, by decide⟩

/-- C5: `read_bool` lowercases the trimmed line before the check, so every
casing of "true" yields `true` and every casing of "false" yields `false`,
in both the prompt-present and prompt-absent branches, while "yes" is
rejected with the default error message and a retry. -/
theorem readBool_case_insensitive :
    (readBool (some "p") none [ReadEvent.line "true\n"] =
      Outcome.ok true [] ["p"]) ∧
    (readBool (some "p") none [ReadEvent.line "True\n"] =
      Outcome.ok true [] ["p"]) ∧
    (readBool (some "p") none [ReadEvent.line "TRUE\n"] =
      Outcome.ok true [] ["p"]) ∧
    (readBool (some "p") none [ReadEvent.line "tRuE\n"] =
      Outcome.ok true [] ["p"]) ∧
    (readBool (some "p") none [ReadEvent.line "false\n"] =
      Outcome.ok false [] ["p"]) ∧
    (readBool (some "p") none [ReadEvent.line "FaLsE\n"] =
      Outcome.ok false [] ["p"]) ∧
    (readBool (some "p") none [ReadEvent.line "FALSE\n"] =
      Outcome.ok false [] ["p"]) ∧
    (readBool none none [ReadEvent.line "tRuE\n"] =
      Outcome.ok true [] ["true\n"]) ∧
    (readBool (some "p") none [ReadEvent.line "yes\n", ReadEvent.line "true\n"] =
      Outcome.ok true []
        ["p", "Please enter a valid boolean value (true / false).\n", "---\n",
          "p"]) :=
  ⟨by decide, by decide, by decide, by decide, by decide, by decide, by decide,
    by decide, by decide⟩

/-- C6: the claim says the only writes are prompt text, error messages and
separator lines.  The prompt-absent branch of `read_bool` violates this: a
leftover debug `println!` echoes the lowercased trimmed input line, so on
the single valid line "True" the run writes "true" followed by a newline —
which is neither the boolean default error message nor the separator.  The
prompt-present branch writes only the prompt, as specified. -/
theorem readBool_output_echoes_input :
    readBool none none [ReadEvent.line "True\n"] =
      Outcome.ok true [] ["true\n"] ∧
    readBool (some "p") none [ReadEvent.line "True\n"] =
      Outcome.ok true [] ["p"] ∧
    "true\n" ≠ "Please enter a valid boolean value (true / false).\n" ∧
    ("true\n" : String) ≠ "---\n" :=
  ⟨by decide, by decide, by decide, by decide⟩

/-- C7: `show_error_message` writes exactly one of the two messages — the
custom one when present, otherwise the default — followed by the fixed
separator line, and on each invalid line a reader performs exactly one such
call (the two `read_u8` runs show the custom message "X" and the default
message, each written once with one separator, per invalid line). -/
theorem showErrorMessage_exactly_one_message :
    (∀ d : String, showErrorMessage none d = [d ++ "\n", "---\n"]) ∧
    (∀ x d : String, showErrorMessage (some x) d = [x ++ "\n", "---\n"]) ∧
    (readU8 (some "p") (some "X") [ReadEvent.line "zz\n", ReadEvent.line "4\n"] =
      Outcome.ok 4 [] ["p", "X\n", "---\n", "p"]) ∧
    (readU8 (some "p") none [ReadEvent.line "zz\n", ReadEvent.line "4\n"] =
      Outcome.ok 4 []
        ["p", "Please enter a valid positive number (8 bits).\n", "---\n", "p"]) :=
  ⟨fun _ => rfl, fun _ _ => rfl, by decide, by decide⟩

/-- C8: for every modeled reader and every prompt/error configuration, a
failing line read (`read_line` returning `Err`) makes the run end in a
panic — the abnormal termination of `expect` — regardless of what events
follow; it is never treated as a retryable validation failure.  The final
conjunct shows a retry followed by an I/O failure: the run panics instead
of continuing to the next scripted line. -/
theorem read_failure_is_fatal :
    (∀ (msg errMsg : Option String) (rest : List ReadEvent),
      readI32 msg errMsg (ReadEvent.ioError :: rest) =
          Outcome.panicked (promptWrites msg) ∧
      readU8 msg errMsg (ReadEvent.ioError :: rest) =
          Outcome.panicked (promptWrites msg) ∧
      readU32 msg errMsg (ReadEvent.ioError :: rest) =
          Outcome.panicked (promptWrites msg) ∧
      readF64 msg errMsg (ReadEvent.ioError :: rest) =
          Outcome.panicked (promptWrites msg) ∧
      readF32 msg errMsg (ReadEvent.ioError :: rest) =
          Outcome.panicked (promptWrites msg) ∧
      readBool msg errMsg (ReadEvent.ioError :: rest) =
          Outcome.panicked (promptWrites msg) ∧
      readChar msg (ReadEvent.ioError :: rest) =
          Outcome.panicked (promptWrites msg)) ∧
    readI32 (some "p") none
        [ReadEvent.line "x\n", ReadEvent.ioError, ReadEvent.line "5\n"] =
      Outcome.panicked
        ["p", "Please enter a valid number (32 bits).\n", "---\n", "p"] := by
  refine ⟨fun msg errMsg rest => ?_, by decide⟩
  cases msg <;> exact ⟨rfl, rfl, rfl, rfl, rfl, rfl, rfl⟩

/-- C9: `read_u8` enforces the exact 8-bit unsigned range on the trimmed
line — "256" retries, "255" returns 255, "-1" retries — and in general the
u8 parse never yields a value above 255, fails on the empty string, and
fails whenever the string contains a character that is neither a digit nor
the optional leading plus sign. -/
theorem readU8_range_enforcement :
    (readU8 (some "p") none [ReadEvent.line "256\n", ReadEvent.line "255\n"] =
      Outcome.ok 255 []
        ["p", "Please enter a valid positive number (8 bits).\n", "---\n", "p"]) ∧
    (readU8 (some "p") none [ReadEvent.line "255\n"] =
      Outcome.ok 255 [] ["p"]) ∧
    (readU8 (some "p") none [ReadEvent.line "-1\n", ReadEvent.line "7\n"] =
      Outcome.ok 7 []
        ["p", "Please enter a valid positive number (8 bits).\n", "---\n", "p"]) ∧
    (∀ (s : String) (v : Nat), rustParseU8 s = some v → v ≤ 255) ∧
    (rustParseU8 "" = none) ∧
    (∀ (s : String) (c : Char), c ∈ s.toList → c.isDigit = false → c ≠ '+' →
      rustParseU8 s = none) := by
  refine ⟨by decide, by decide, by decide, ?_, by decide, ?_⟩
  · exact fun _ _ h => rustParseUnsigned_le h
  · exact fun _ _ hc hd hp => rustParseUnsigned_eq_none_of_mem hc hd hp

/-- Witness for C9: the quantified conjuncts applied at concrete inputs. -/
theorem readU8_range_enforcement_witness :
    (7 : Nat) ≤ 255 ∧ rustParseU8 "2x5" = none :=
  ⟨readU8_range_enforcement.2.2.2.1 "7" 7 (by decide),
    readU8_range_enforcement.2.2.2.2.2 "2x5" 'x' (by decide) (by decide)
      (by decide)⟩

/-- C10: in the prompt-present branches of `read_f64` and `read_f32`, the
comma substitution rewrites every comma in the line; any line whose fully
comma-replaced trimmed form parses as a float exits the loop on that single
line with that value (first two conjuncts), so "12," yields 12.0 and ",5"
yields 0.5 (remaining conjuncts). -/
theorem readFloat_comma_replacement :
    (∀ (m : String) (errMsg : Option String) (s : String) (v : FloatVal)
        (rest : List ReadEvent),
      rustParseF64 (rustTrim (replaceCommas s)) = some v →
      readF64 (some m) errMsg (ReadEvent.line s :: rest) =
        Outcome.ok v rest [m]) ∧
    (∀ (m : String) (errMsg : Option String) (s : String) (v : FloatVal)
        (rest : List ReadEvent),
      rustParseF32 (rustTrim (replaceCommas s)) = some v →
      readF32 (some m) errMsg (ReadEvent.line s :: rest) =
        Outcome.ok v rest [m]) ∧
    (readF64 (some "p") none [ReadEvent.line "12,\n"] =
      Outcome.ok (FloatVal.finite 12) [] ["p"]) ∧
    (readF64 (some "p") none [ReadEvent.line ",5\n"] =
      Outcome.ok (FloatVal.finite (1/2)) [] ["p"]) ∧
    (readF32 (some "p") none [ReadEvent.line "12,\n"] =
      Outcome.ok (FloatVal.finite 12) [] ["p"]) ∧
    (readF32 (some "p") none [ReadEvent.line ",5\n"] =
      Outcome.ok (FloatVal.finite (1/2)) [] ["p"]) := by
  refine ⟨?_, ?_, ?_, ?_, ?_, ?_⟩
  · intro m errMsg s v rest h
    simp [readF64, readF64LoopSome, h]
  · intro m errMsg s v rest h
    simp [readF32, readF32LoopSome, h]
  · simp [readF64, readF64LoopSome, rustParseF64, rustParseFloat, stripSign,
      splitAtFirstBy, parseMantissa, parseExp, decDigitsVal, natOfDigits,
      rustTrim, replaceCommas, showErrorMessage]
  · simp [readF64, readF64LoopSome, rustParseF64, rustParseFloat, stripSign,
      splitAtFirstBy, parseMantissa, parseExp, decDigitsVal, natOfDigits,
      rustTrim, replaceCommas, showErrorMessage]
    norm_num
  · simp [readF32, readF32LoopSome, rustParseF32, rustParseFloat, stripSign,
      splitAtFirstBy, parseMantissa, parseExp, decDigitsVal, natOfDigits,
      rustTrim, replaceCommas, showErrorMessage]
  · simp [readF32, readF32LoopSome, rustParseF32, rustParseFloat, stripSign,
      splitAtFirstBy, parseMantissa, parseExp, decDigitsVal, natOfDigits,
      rustTrim, replaceCommas, showErrorMessage]
    norm_num

/-- Witness for C10: the quantified f64 conjunct applied at the line "0,25",
whose comma-replaced trimmed form parses as the rational 1/4. -/
theorem readFloat_comma_replacement_witness :
    readF64 (some "q") none [ReadEvent.line "0,25\n"] =
      Outcome.ok (FloatVal.finite (1/4)) [] ["q"] := by
  have h : rustParseF64 (rustTrim (replaceCommas "0,25\n")) =
      some (FloatVal.finite (1/4)) := by
    simp [rustParseF64, rustParseFloat, stripSign, splitAtFirstBy,
      parseMantissa, parseExp, decDigitsVal, natOfDigits, rustTrim,
      replaceCommas]
    norm_num
  exact readFloat_comma_replacement.1 "q" none "0,25\n"
    (FloatVal.finite (1/4)) [] h

end QuickInput
